import Mathlib

/-!
# A verification model of `jj-run.py`

This file gives a shallow embedding of the core pipeline of `jj-run.py`:
the change-list parser (`get_change_list`), the batch processor
(`process_changes` / `handle_errors`), the history rewriter
(`rewrite_parents`), the cleanup step (`abandon_changes`) and the
orchestrating entry point (`run_jj_command` plus the `__main__` exit-code
handling).

External `jj` invocations are modelled by oracles: the exit code of the
user command at each iteration, the result of re-resolving `@` after each
iteration, and the emptiness query for a change id.  Python exceptions are
modelled explicitly: `SystemExit n` as an `Option Int` escaping a stage,
and an uncaught `IndexError` as a dedicated flag / an `Option`-valued
result.  Machine strings stay `String`; the parser's byte buffer is a
`List Char` (a faithful model of a Python `str`).
-/

/-- The `Change` dataclass of `jj-run.py` (fields in source order). -/
structure Change where
  commit_id : String
  change_id : String
  description : String
  parents : List String
deriving Repr, DecidableEq

/-- A raw decoded JSON record before the defaulting done in
`get_change_list`: `description` and `parents` may be absent
(`change_entry.get(...)` with a default). -/
structure RawRecord where
  commit_id : String
  change_id : String
  description : Option String
  parents : Option (List String)
deriving Repr, DecidableEq

/-- The record-to-`Change` conversion performed inside `get_change_list`:
a missing `description` defaults to `""`, missing `parents` default to
`[]` (source lines 216–223). -/
def changeOfRecord (r : RawRecord) : Change :=
  { commit_id := r.commit_id
    change_id := r.change_id
    description := r.description.getD ""
    parents := r.parents.getD [] }

/-! ## The change-list parser (`get_change_list`, lines 196–230)

The Python loop works on `combined_output : str`.  We model the buffer as
`List Char` and the `json.JSONDecoder().raw_decode` call as an oracle
`decode : List Char → Option (Change × Nat)` returning the decoded record
together with the index of the first unconsumed character (`none` models
`json.JSONDecodeError`).  The loop itself is translated step by step; a
fuel parameter bounds the number of iterations, and the function returns
`none` exactly when the loop has not terminated within the given fuel. -/

/-- Python `str.lstrip()` / `str.strip()` whitespace class. -/
def isPySpace (c : Char) : Bool :=
  c = ' ' || c = '\t' || c = '\n' || c = '\r' || c = '\x0b' || c = '\x0c'

/-- Python `s.lstrip()`. -/
def pyLstrip (s : List Char) : List Char :=
  s.dropWhile isPySpace

/-- Python `s.strip()`. -/
def pyStrip (s : List Char) : List Char :=
  ((s.dropWhile isPySpace).reverse.dropWhile isPySpace).reverse

/-- The resynchronization step of the parser (line 229):
`combined_output = combined_output[combined_output.find("\n") + 1:]`.
Python's `str.find` returns `-1` when `"\n"` does not occur, and then
`-1 + 1 = 0`, so the slice is the whole string: the buffer is unchanged. -/
def pyDropPastNewline (s : List Char) : List Char :=
  match s.findIdx? (fun c => c = '\n') with
  | some i => s.drop (i + 1)
  | none => s

/-- The `while combined_output:` loop of `get_change_list`
(lines 213–229), with explicit fuel.  `none` means the loop was still
running when the fuel ran out. -/
def getChangeListLoop (decode : List Char → Option (Change × Nat)) :
    Nat → List Char → List Change → Option (List Change)
  | 0, buf, acc => if buf.isEmpty then some acc else none
  | fuel + 1, buf, acc =>
    if buf.isEmpty then some acc
    else
      match decode buf with
      | some (c, index) =>
        getChangeListLoop decode fuel (pyLstrip (buf.drop index)) (acc ++ [c])
      | none =>
        let buf2 := pyLstrip buf
        if buf2.isEmpty then some acc
        else getChangeListLoop decode fuel (pyDropPastNewline buf2) acc

/-- Model of `get_change_list` (lines 196–230): empty stdout yields `[]`,
otherwise the stdout is stripped and fed to the decode-or-resync loop. -/
def get_change_list (decode : List Char → Option (Change × Nat))
    (fuel : Nat) (stdout : List Char) : Option (List Change) :=
  if stdout.isEmpty then some []
  else getChangeListLoop decode fuel (pyStrip stdout) []

/-- A concrete stdout with no decodable record and no line break. -/
def garbageBuf : List Char := ['g', 'a', 'r', 'b', 'a', 'g', 'e']

/-! ## The batch processor (`process_changes`, lines 250–291, and
`handle_errors`, lines 294–318)

External behaviour per iteration is an oracle (`BatchEnv`): `exitCode i`
is the return code of the user command at 0-based iteration `i`, and
`currentChanges i` is the list returned by `get_change_list "@"` after
that iteration.  `jj new` is assumed to succeed (a failure there is a
gateway fault outside every claim's scope).  `raise SystemExit(n)` is
modelled by `Except Int`. -/

/-- The three-valued error strategy (`continue` / `stop` / `fatal`);
`cont` stands for the source's `"continue"`. -/
inductive ErrStrategy
  | cont
  | stop
  | fatal
deriving Repr, DecidableEq

/-- Model of `handle_errors` (lines 294–318): on a nonzero return code,
`continue` logs and returns `False`, `stop` logs and returns `True`,
`fatal` raises `SystemExit(result.returncode)`. On a zero return code it
returns `False`. -/
def handle_errors (returncode : Int) (err_strategy : ErrStrategy) :
    Except Int Bool :=
  if returncode ≠ 0 then
    match err_strategy with
    | .cont => .ok false
    | .stop => .ok true
    | .fatal => .error returncode
  else .ok false

/-- Per-iteration oracles for the external `jj` and user-command calls
made by `process_changes`. -/
structure BatchEnv where
  exitCode : Nat → Int
  currentChanges : Nat → List Change

/-- The state of `process_changes` when it ends: its local
`new_changes` and `all_successful`, the number of loop iterations that
were entered (`attempted`), and `exn = some n` when the function ended by
raising `SystemExit(n)` instead of returning (in which case the caller
never receives `newChanges`). -/
structure BatchResult where
  newChanges : List Change
  allSuccessful : Bool
  attempted : Nat
  exn : Option Int
deriving Repr, DecidableEq

/-- The `for` loop of `process_changes` (lines 270–290), one constructor
per Python statement: read the user command's return code, update
`all_successful`, run `handle_errors` (which may raise), append the
re-resolved `@` changes, then either raise `SystemExit` (strategy
`stop`), `break` (the dead `break` branch), or continue iterating. -/
def processChangesAux (env : BatchEnv) (err_strategy : ErrStrategy) :
    List Change → Nat → List Change → Bool → Nat → BatchResult
  | [], _idx, acc, ok, att => ⟨acc, ok, att, none⟩
  | _c :: rest, idx, acc, ok, att =>
    let rc := env.exitCode idx
    let ok2 := ok && (rc == 0)
    match handle_errors rc err_strategy with
    | .error code => ⟨acc, ok2, att + 1, some code⟩
    | .ok exitEarly =>
      let acc2 := acc ++ env.currentChanges idx
      if exitEarly then
        match err_strategy with
        | .stop => ⟨acc2, ok2, att + 1, some rc⟩
        | _ => ⟨acc2, ok2, att + 1, none⟩
      else processChangesAux env err_strategy rest (idx + 1) acc2 ok2 (att + 1)

/-- Model of `process_changes` (lines 250–291). -/
def process_changes (env : BatchEnv) (err_strategy : ErrStrategy)
    (changes : List Change) : BatchResult :=
  processChangesAux env err_strategy changes 0 [] true 0

/-- The list `get_change_list "@"` results appended over iterations
`idx, idx+1, …, idx+k-1` — the contents of `new_changes` contributed by
`k` completed iterations starting at `idx`. -/
def gathered (env : BatchEnv) : Nat → Nat → List Change
  | _idx, 0 => []
  | idx, k + 1 => env.currentChanges idx ++ gathered env (idx + 1) k

/-! ## The history rewriter (`rewrite_parents`, lines 148–168)

`is_change_empty` is an external `jj log -T json(empty)` query, modelled
by an oracle `em : String → Bool` on change ids (`true` = the change is
absent or empty).  For each non-empty change the source runs
`jj edit change.parents[0]` then
`jj restore --from change.change_id --restore-descendants` and increments
`modified_count`; `change.parents[0]` on an empty `parents` list raises
`IndexError`, modelled by the `none` result.  The returned list records
the `(edit target, restore source)` pair of each issued edit/restore, in
order. -/

def rewrite_parents (em : String → Bool) :
    List Change → Option (Nat × List (String × String))
  | [] => some (0, [])
  | c :: rest =>
    if em c.change_id then rewrite_parents em rest
    else
      match c.parents.head? with
      | none => none
      | some p =>
        match rewrite_parents em rest with
        | none => none
        | some (n, ops) => some (n + 1, (p, c.change_id) :: ops)

/-- Modelled from the spec (§4.5), for comparison with `rewrite_parents`:
the sequence of (edit-first-parent, transplant-content) operations the
History Rewriter issues — empty changes are skipped entirely, non-empty
changes contribute one operation each, in list order. -/
def rewriteSpecOps (em : String → Bool) (changes : List Change) :
    List (String × String) :=
  changes.filterMap fun c =>
    if em c.change_id then none
    else some (c.parents.headD "", c.change_id)

/-- Modelled from the spec (§4.5): `modifiedCount` counts exactly the
non-empty changes. -/
def rewriteSpecCount (em : String → Bool) (changes : List Change) : Nat :=
  (changes.filter fun c => !(em c.change_id)).length

/-! ## Cleanup (`abandon_changes`, lines 171–184)

The external `jj abandon <revset> --ignore-working-copy` call is modelled
on an abstract repository state (the list of live change ids).  The
source always passes the selector `present(change[:12])`: `present(...)`
resolves to the empty set instead of erroring when the change is absent.
The model keeps the 12-character truncation and also offers the
non-tolerant form (a bare change-id revset errors when absent) so that
the tolerance is visible in the type. -/

/-- External `jj abandon` on a repository state: abandons every live
change whose id matches the 12-character selector derived from `cid`.
With `tolerateAbsent = false` (a bare revset, not used by the source) it
errors (`none`) when nothing matches; with `tolerateAbsent = true`
(`present(...)`, what the source issues) it always succeeds. -/
def jj_abandon (tolerateAbsent : Bool) (repo : List String)
    (cid : String) : Option (List String) :=
  if !tolerateAbsent && (repo.filter fun x => x.take 12 = cid.take 12).isEmpty then
    none
  else some (repo.filter fun x => x.take 12 ≠ cid.take 12)

/-- Model of `abandon_changes` (lines 171–184): one
`jj abandon present(c[:12])`
per listed change id, in order. -/
def abandon_changes (repo : List String) (changes : List String) :
    Option (List String) :=
  changes.foldlM (fun r c => jj_abandon true r c) repo

/-! ## The orchestrator (`run_jj_command`, lines 94–134, and the
`__main__` block, lines 361–397)

`run_jj_command` resolves the workspace's bootstrap change and the input
change list (both oracles in `RunEnv`), then runs the batch processor
inside `try/finally` nested inside the `managed_workspace` context
manager.  The outcome record captures the externally visible effects:
which change ids were passed to `abandon_changes`, whether
`forget_workspace` ran, whether the rewrite stage was entered, the
reported `modified_count`, the escaping `SystemExit` code (if any), an
uncaught non-`SystemExit` exception (the rewriter's `IndexError`), and
the caller-local `new_changes` at the `finally`.

Key control-flow facts of the source, reflected below:
* empty change list (line 116): print, abandon the bootstrap change,
  `return`; the context manager still forgets the workspace;
* `new_changes` is initialized to `[]` at line 120 and reassigned only by
  a *successful* return of `process_changes`; if `process_changes`
  raises, the `finally` at line 128 abandons `[] + [bootstrap]`;
* `rewrite_parents` runs only when `process_changes` returned; if it
  raises, the `finally` abandons the already-assigned `new_changes` plus
  the bootstrap change and the exception propagates;
* `managed_workspace` forgets the workspace in its own `finally` on every
  one of these paths. -/

/-- Oracles for one run: the bootstrap change of the fresh workspace, the
resolved input change list, the per-iteration batch oracles, and the
emptiness query used by the rewriter. -/
structure RunEnv where
  workspaceChange : Change
  changes : List Change
  batch : BatchEnv
  isEmpty : String → Bool

/-- Externally visible outcome of `run_jj_command`. -/
structure RunOutcome where
  abandoned : List String
  forgot : Bool
  reportedNothing : Bool
  rewriteRan : Bool
  modifiedCount : Option Nat
  raised : Option Int
  uncaught : Bool
  newChanges : List Change
deriving Repr, DecidableEq

/-- Model of `run_jj_command` (lines 94–134). -/
def run_jj_command (env : RunEnv) (err_strategy : ErrStrategy) :
    RunOutcome :=
  if env.changes.isEmpty then
    { abandoned := [env.workspaceChange.change_id], forgot := true,
      reportedNothing := true, rewriteRan := false, modifiedCount := none,
      raised := none, uncaught := false, newChanges := [] }
  else
    let br := process_changes env.batch err_strategy env.changes
    match br.exn with
    | some code =>
      { abandoned := [env.workspaceChange.change_id], forgot := true,
        reportedNothing := false, rewriteRan := false, modifiedCount := none,
        raised := some code, uncaught := false, newChanges := [] }
    | none =>
      match rewrite_parents env.isEmpty br.newChanges with
      | none =>
        { abandoned := br.newChanges.map (fun c => c.change_id)
            ++ [env.workspaceChange.change_id],
          forgot := true, reportedNothing := false, rewriteRan := true,
          modifiedCount := none, raised := none, uncaught := true,
          newChanges := br.newChanges }
      | some (n, _ops) =>
        { abandoned := br.newChanges.map (fun c => c.change_id)
            ++ [env.workspaceChange.change_id],
          forgot := true, reportedNothing := false, rewriteRan := true,
          modifiedCount := some n, raised := none, uncaught := false,
          newChanges := br.newChanges }

/-- Process-level exit code, following the `__main__` block (lines
361–397): a `SystemExit` is re-raised for `stop` and `fatal` and
swallowed for `continue`; an uncaught non-`SystemExit` exception makes
the interpreter exit with code 1; otherwise the process exits 0. -/
def jj_run_main (env : RunEnv) (err_strategy : ErrStrategy) : Int :=
  let o := run_jj_command env err_strategy
  if o.uncaught then 1
  else
    match o.raised, err_strategy with
    | some code, .stop => code
    | some code, .fatal => code
    | some _, .cont => 0
    | none, _ => 0

/-! ## Helper lemmas about the batch processor -/

theorem handle_errors_cont (rc : Int) : handle_errors rc .cont = .ok false := by
  unfold handle_errors
  split <;> rfl

theorem handle_errors_zero (s : ErrStrategy) : handle_errors 0 s = .ok false := by
  rfl

theorem handle_errors_stop (rc : Int) (h : rc ≠ 0) :
    handle_errors rc .stop = .ok true := by
  simp [handle_errors, h]

theorem handle_errors_fatal (rc : Int) (h : rc ≠ 0) :
    handle_errors rc .fatal = .error rc := by
  simp [handle_errors, h]

/-- A zero-exit-code iteration just appends the re-resolved changes and
recurses, under any strategy. -/
theorem processChangesAux_step_zero (env : BatchEnv) (s : ErrStrategy)
    (c : Change) (rest : List Change) (idx : Nat) (acc : List Change)
    (ok : Bool) (att : Nat) (h : env.exitCode idx = 0) :
    processChangesAux env s (c :: rest) idx acc ok att
      = processChangesAux env s rest (idx + 1)
          (acc ++ env.currentChanges idx) ok (att + 1) := by
  simp [processChangesAux, h, handle_errors_zero]

/-- A run whose user command succeeds on every listed change completes
all iterations and returns normally, under any strategy. -/
theorem processChangesAux_all_zero (env : BatchEnv) (s : ErrStrategy) :
    ∀ (l : List Change) (idx : Nat) (acc : List Change) (ok : Bool) (att : Nat),
      (∀ j, j < l.length → env.exitCode (idx + j) = 0) →
      processChangesAux env s l idx acc ok att
        = ⟨acc ++ gathered env idx l.length, ok, att + l.length, none⟩
  | [], idx, acc, ok, att, _h => by
    simp [processChangesAux, gathered]
  | c :: rest, idx, acc, ok, att, h => by
    have h0 : env.exitCode idx = 0 := by
      have := h 0 (Nat.succ_pos _)
      simpa using this
    rw [processChangesAux_step_zero env s c rest idx acc ok att h0]
    rw [processChangesAux_all_zero env s rest (idx + 1)
      (acc ++ env.currentChanges idx) ok (att + 1)
      (fun j hj => by
        have := h (j + 1) (by simpa using Nat.succ_lt_succ hj)
        simpa [Nat.add_assoc, Nat.add_comm, Nat.add_left_comm] using this)]
    simp [gathered, List.append_assoc]
    omega

/-- Under `fatal`, the first failing iteration raises `SystemExit` with
the failing exit code before appending anything for that iteration. -/
theorem processChangesAux_first_fail_fatal (env : BatchEnv) :
    ∀ (pre : List Change) (c : Change) (post : List Change) (idx : Nat)
      (acc : List Change) (ok : Bool) (att : Nat),
      (∀ j, j < pre.length → env.exitCode (idx + j) = 0) →
      env.exitCode (idx + pre.length) ≠ 0 →
      processChangesAux env .fatal (pre ++ c :: post) idx acc ok att
        = ⟨acc ++ gathered env idx pre.length, false, att + pre.length + 1,
            some (env.exitCode (idx + pre.length))⟩
  | [], c, post, idx, acc, ok, att, _hpre, hfail => by
    simp only [List.nil_append, List.length_nil, Nat.add_zero] at hfail ⊢
    simp [processChangesAux, handle_errors_fatal _ hfail, gathered,
      Bool.and_eq_false_iff]
    omega
  | p :: pre, c, post, idx, acc, ok, att, hpre, hfail => by
    have h0 : env.exitCode idx = 0 := by
      have := hpre 0 (Nat.succ_pos _)
      simpa using this
    rw [List.cons_append,
      processChangesAux_step_zero env .fatal p (pre ++ c :: post) idx acc ok att h0]
    rw [processChangesAux_first_fail_fatal env pre c post (idx + 1)
      (acc ++ env.currentChanges idx) ok (att + 1)
      (fun j hj => by
        have := hpre (j + 1) (by simpa using Nat.succ_lt_succ hj)
        simpa [Nat.add_assoc, Nat.add_comm, Nat.add_left_comm] using this)
      (by
        have : idx + 1 + pre.length = idx + (p :: pre).length := by
          simp; omega
        rw [this]; exact hfail)]
    have hidx : idx + 1 + pre.length = idx + (p :: pre).length := by
      simp; omega
    simp [gathered, List.append_assoc, hidx]
    omega

/-- Under `continue`, every iteration recurses whatever the exit code. -/
theorem processChangesAux_step_cont (env : BatchEnv) (c : Change)
    (rest : List Change) (idx : Nat) (acc : List Change) (ok : Bool)
    (att : Nat) :
    processChangesAux env .cont (c :: rest) idx acc ok att
      = processChangesAux env .cont rest (idx + 1)
          (acc ++ env.currentChanges idx)
          (ok && (env.exitCode idx == 0)) (att + 1) := by
  simp [processChangesAux, handle_errors_cont]

/-- Under `continue` the loop never raises and attempts every change. -/
theorem processChangesAux_cont_total (env : BatchEnv) :
    ∀ (l : List Change) (idx : Nat) (acc : List Change) (ok : Bool) (att : Nat),
      (processChangesAux env .cont l idx acc ok att).exn = none ∧
      (processChangesAux env .cont l idx acc ok att).attempted = att + l.length
  | [], idx, acc, ok, att => by simp [processChangesAux]
  | c :: rest, idx, acc, ok, att => by
    rw [processChangesAux_step_cont]
    have ih := processChangesAux_cont_total env rest (idx + 1)
      (acc ++ env.currentChanges idx) (ok && (env.exitCode idx == 0)) (att + 1)
    refine ⟨ih.1, ?_⟩
    rw [ih.2]
    simp
    omega

/-- Under `stop`, the first failing iteration still appends the
re-resolved changes for that iteration and then raises `SystemExit` with
the failing exit code. -/
theorem processChangesAux_first_fail_stop (env : BatchEnv) :
    ∀ (pre : List Change) (c : Change) (post : List Change) (idx : Nat)
      (acc : List Change) (ok : Bool) (att : Nat),
      (∀ j, j < pre.length → env.exitCode (idx + j) = 0) →
      env.exitCode (idx + pre.length) ≠ 0 →
      processChangesAux env .stop (pre ++ c :: post) idx acc ok att
        = ⟨acc ++ gathered env idx pre.length
              ++ env.currentChanges (idx + pre.length),
            false, att + pre.length + 1,
            some (env.exitCode (idx + pre.length))⟩
  | [], c, post, idx, acc, ok, att, _hpre, hfail => by
    simp only [List.nil_append, List.length_nil, Nat.add_zero] at hfail ⊢
    simp [processChangesAux, handle_errors_stop _ hfail, gathered,
      Bool.and_eq_false_iff]
    omega
  | p :: pre, c, post, idx, acc, ok, att, hpre, hfail => by
    have h0 : env.exitCode idx = 0 := by
      have := hpre 0 (Nat.succ_pos _)
      simpa using this
    rw [List.cons_append,
      processChangesAux_step_zero env .stop p (pre ++ c :: post) idx acc ok att h0]
    rw [processChangesAux_first_fail_stop env pre c post (idx + 1)
      (acc ++ env.currentChanges idx) ok (att + 1)
      (fun j hj => by
        have := hpre (j + 1) (by simpa using Nat.succ_lt_succ hj)
        simpa [Nat.add_assoc, Nat.add_comm, Nat.add_left_comm] using this)
      (by
        have : idx + 1 + pre.length = idx + (p :: pre).length := by
          simp; omega
        rw [this]; exact hfail)]
    have hidx : idx + 1 + pre.length = idx + (p :: pre).length := by
      simp; omega
    simp [gathered, List.append_assoc, hidx]
    omega

/-- When every `@` re-resolution yields exactly one change, the local
`new_changes` of the loop grows by exactly one element per entered
iteration, under `continue` and `stop` (even the iteration that fails
under `stop` appends its change before raising). -/
theorem processChangesAux_len_invariant (env : BatchEnv) (s : ErrStrategy)
    (hs : s ≠ ErrStrategy.fatal)
    (hlen : ∀ i, (env.currentChanges i).length = 1) :
    ∀ (l : List Change) (idx : Nat) (acc : List Change) (ok : Bool) (att : Nat),
      (processChangesAux env s l idx acc ok att).newChanges.length + att
        = acc.length + (processChangesAux env s l idx acc ok att).attempted
  | [], idx, acc, ok, att => by simp [processChangesAux]
  | c :: rest, idx, acc, ok, att => by
    by_cases h : env.exitCode idx = 0
    · rw [processChangesAux_step_zero env s c rest idx acc ok att h]
      have ih := processChangesAux_len_invariant env s hs hlen rest (idx + 1)
        (acc ++ env.currentChanges idx) ok (att + 1)
      have hl : (acc ++ env.currentChanges idx).length = acc.length + 1 := by
        simp [hlen idx]
      omega
    · match s with
      | .fatal => exact absurd rfl hs
      | .cont =>
        rw [processChangesAux_step_cont]
        have ih := processChangesAux_len_invariant env .cont hs hlen rest (idx + 1)
          (acc ++ env.currentChanges idx) (ok && (env.exitCode idx == 0)) (att + 1)
        have hl : (acc ++ env.currentChanges idx).length = acc.length + 1 := by
          simp [hlen idx]
        omega
      | .stop =>
        simp [processChangesAux, handle_errors_stop _ h, hlen idx]
        omega

/-- Under `fatal`, the local `new_changes` grows by one element per
entered iteration except the iteration that raises `SystemExit`, which
appends nothing. -/
theorem processChangesAux_len_invariant_fatal (env : BatchEnv)
    (hlen : ∀ i, (env.currentChanges i).length = 1) :
    ∀ (l : List Change) (idx : Nat) (acc : List Change) (ok : Bool) (att : Nat),
      (processChangesAux env .fatal l idx acc ok att).newChanges.length + att
          + (if (processChangesAux env .fatal l idx acc ok att).exn = none
              then 0 else 1)
        = acc.length + (processChangesAux env .fatal l idx acc ok att).attempted
  | [], idx, acc, ok, att => by simp [processChangesAux]
  | c :: rest, idx, acc, ok, att => by
    by_cases h : env.exitCode idx = 0
    · rw [processChangesAux_step_zero env .fatal c rest idx acc ok att h]
      have ih := processChangesAux_len_invariant_fatal env hlen rest (idx + 1)
        (acc ++ env.currentChanges idx) ok (att + 1)
      have hl : (acc ++ env.currentChanges idx).length = acc.length + 1 := by
        simp [hlen idx]
      omega
    · simp [processChangesAux, handle_errors_fatal _ h]
      omega

/-- Length of the gathered per-iteration results when each re-resolution
yields exactly one change. -/
theorem gathered_length (env : BatchEnv)
    (hlen : ∀ i, (env.currentChanges i).length = 1) :
    ∀ (idx k : Nat), (gathered env idx k).length = k
  | _idx, 0 => rfl
  | idx, k + 1 => by
    simp [gathered, hlen idx, gathered_length env hlen (idx + 1) k]
    omega

/-! ## Helper lemmas about the history rewriter -/

theorem headD_of_ne_nil {α : Type} (l : List α) (d : α) (h : l ≠ []) :
    l.head? = some (l.headD d) := by
  cases l with
  | nil => exact absurd rfl h
  | cons a t => rfl

set_option maxRecDepth 4000 in
/-- The rewriter completes (no `IndexError`) whenever every non-empty
change in its input has at least one parent. -/
theorem rewrite_parents_isSome (em : String → Bool) :
    ∀ (l : List Change),
      (∀ c ∈ l, em c.change_id = false → c.parents ≠ []) →
      (rewrite_parents em l).isSome
  | [], _h => by simp [rewrite_parents]
  | c :: rest, h => by
    have ih := rewrite_parents_isSome em rest
      (fun d hd => h d (List.mem_cons_of_mem _ hd))
    by_cases hc : em c.change_id = true
    · simpa [rewrite_parents, hc] using ih
    · have hcf : em c.change_id = false := by
        simpa using hc
      have hp : c.parents ≠ [] := h c (List.mem_cons_self _ _) hcf
      obtain ⟨⟨n, ops⟩, hr⟩ := Option.isSome_iff_exists.mp ih
      cases hps : c.parents with
      | nil => exact absurd hps hp
      | cons p ps => simp [rewrite_parents, hcf, hps, hr]

set_option maxRecDepth 4000 in
/-- Refinement of the rewriter against the spec-side description: under
the no-missing-parent precondition, `rewrite_parents` returns exactly the
spec's count of non-empty changes and the spec's operation sequence. -/
theorem rewrite_parents_refines (em : String → Bool) :
    ∀ (l : List Change),
      (∀ c ∈ l, em c.change_id = false → c.parents ≠ []) →
      rewrite_parents em l = some (rewriteSpecCount em l, rewriteSpecOps em l)
  | [], _h => by simp [rewrite_parents, rewriteSpecCount, rewriteSpecOps]
  | c :: rest, h => by
    have ih := rewrite_parents_refines em rest
      (fun d hd => h d (List.mem_cons_of_mem _ hd))
    by_cases hc : em c.change_id = true
    · simp [rewrite_parents, hc, ih, rewriteSpecCount, rewriteSpecOps]
    · have hcf : em c.change_id = false := by
        simpa using hc
      have hp : c.parents ≠ [] := h c (List.mem_cons_self _ _) hcf
      cases hps : c.parents with
      | nil => exact absurd hps hp
      | cons p ps =>
        simp [rewrite_parents, hcf, hps, ih, rewriteSpecCount, rewriteSpecOps]

/-! ## Helper lemmas about the parser loop -/

theorem garbageBuf_lstrip : pyLstrip garbageBuf = garbageBuf := by decide

theorem garbageBuf_resync : pyDropPastNewline garbageBuf = garbageBuf := by decide

theorem garbageBuf_strip : pyStrip garbageBuf = garbageBuf := by decide

/-- On the `garbage` buffer the decode-or-resync loop makes no progress:
decoding fails, nothing is stripped, and with no line break in the buffer
the resynchronization slice starts at index `-1 + 1 = 0`, leaving the
buffer unchanged — so the loop never finishes, whatever the fuel. -/
theorem getChangeListLoop_garbage (decode : List Char → Option (Change × Nat))
    (hdec : decode garbageBuf = none) :
    ∀ (fuel : Nat) (acc : List Change),
      getChangeListLoop decode fuel garbageBuf acc = none
  | 0, acc => by simp [getChangeListLoop, garbageBuf]
  | fuel + 1, acc => by
    rw [getChangeListLoop]
    simp only [hdec, garbageBuf_lstrip]
    rw [if_neg (by simp [garbageBuf]), if_neg (by simp [garbageBuf])]
    rw [garbageBuf_resync]
    exact getChangeListLoop_garbage decode hdec fuel acc

/-! ## Helper lemmas about cleanup -/

theorem abandon_changes_nil (repo : List String) :
    abandon_changes repo [] = some repo := rfl

theorem abandon_changes_cons (repo : List String) (c : String)
    (ids : List String) :
    abandon_changes repo (c :: ids)
      = abandon_changes (repo.filter fun x => x.take 12 ≠ c.take 12) ids := by
  simp [abandon_changes, jj_abandon, List.foldlM]

/-- The cleanup fold always succeeds (every selector is
existence-tolerant) and its result contains only survivors of the
original repository, none of which matches any abandoned selector. -/
theorem abandon_changes_spec :
    ∀ (ids repo : List String),
      ∃ r, abandon_changes repo ids = some r ∧
        ∀ x ∈ r, x ∈ repo ∧ ∀ c ∈ ids, x.take 12 ≠ c.take 12
  | [], repo =>
    ⟨repo, rfl, fun x hx => ⟨hx, fun c hc => absurd hc (List.not_mem_nil c)⟩⟩
  | c :: ids, repo => by
    obtain ⟨r, hr, hprop⟩ :=
      abandon_changes_spec ids (repo.filter fun x => x.take 12 ≠ c.take 12)
    refine ⟨r, by rw [abandon_changes_cons]; exact hr, ?_⟩
    intro x hx
    obtain ⟨hxf, hpred⟩ := hprop x hx
    have hxr : x ∈ repo := (List.mem_filter.mp hxf).1
    have hxc : x.take 12 ≠ c.take 12 := by
      have := (List.mem_filter.mp hxf).2
      simpa using this
    refine ⟨hxr, fun d hd => ?_⟩
    rcases List.mem_cons.mp hd with h | h
    · rw [h]; exact hxc
    · exact hpred d h

/-- Abandoning already-absent selectors does nothing and does not fail. -/
theorem abandon_changes_fixed :
    ∀ (ids repo : List String),
      (∀ x ∈ repo, ∀ c ∈ ids, x.take 12 ≠ c.take 12) →
      abandon_changes repo ids = some repo
  | [], repo, _h => rfl
  | c :: ids, repo, h => by
    rw [abandon_changes_cons]
    have hfix : repo.filter (fun x => x.take 12 ≠ c.take 12) = repo :=
      List.filter_eq_self.mpr
        (fun a ha => by simpa using h a ha c (List.mem_cons_self c ids))
    rw [hfix]
    exact abandon_changes_fixed ids repo
      (fun x hx d hd => h x hx d (List.mem_cons_of_mem _ hd))

/-! ## Concrete fixtures used by witnesses and counterexamples -/

/-- Bootstrap change auto-created on workspace registration. -/
def chBoot : Change := ⟨"bc0", "bootstrapid0", "", ["root0"]⟩

/-- First input change. -/
def chIn1 : Change := ⟨"ci1", "inputid1", "first", ["parent0"]⟩

/-- Second input change. -/
def chIn2 : Change := ⟨"ci2", "inputid2", "second", ["inputid1"]⟩

/-- Working-copy change produced by re-resolving `@` after iteration 1. -/
def chNew1 : Change := ⟨"cn1", "newid1", "", ["inputid1"]⟩

/-- Working-copy change produced by re-resolving `@` after iteration 2. -/
def chNew2 : Change := ⟨"cn2", "newid2", "", ["inputid2"]⟩

/-- Run with a single input change whose user command exits 7. -/
def envOneFail : RunEnv :=
  { workspaceChange := chBoot
    changes := [chIn1]
    batch := { exitCode := fun _ => 7, currentChanges := fun _ => [chNew1] }
    isEmpty := fun _ => false }

/-- Run with two input changes: the first succeeds (producing `chNew1`),
the second exits 3. -/
def envTwoSecondFails : RunEnv :=
  { workspaceChange := chBoot
    changes := [chIn1, chIn2]
    batch :=
      { exitCode := fun i => if i = 0 then 0 else 3
        currentChanges := fun i => if i = 0 then [chNew1] else [chNew2] }
    isEmpty := fun _ => false }

/-- Run whose selection resolved to no changes at all. -/
def envNoChanges : RunEnv :=
  { workspaceChange := chBoot
    changes := []
    batch := { exitCode := fun _ => 0, currentChanges := fun _ => [] }
    isEmpty := fun _ => false }

/-- Batch oracle with a single failing iteration (exit code 1). -/
def batchOneFail : BatchEnv :=
  { exitCode := fun _ => 1, currentChanges := fun _ => [chNew1] }

/-! ## The claims -/

/-- C1, counterexample: with one input change whose command exits 7 and
strategy `stop`, the run does NOT proceed through the history-rewrite
stage — `process_changes` raises `SystemExit(7)` (line 289), so
`rewrite_parents` is never called and no `modified_count` exists — which
falsifies the claim that `stop` still runs the remaining pipeline stages
and reports a `modifiedCount`. -/
theorem c1_stop_counterexample :
    (run_jj_command envOneFail .stop).rewriteRan = false ∧
    (run_jj_command envOneFail .stop).modifiedCount = none ∧
    jj_run_main envOneFail .stop = 7 := by decide

/-- C1 (amended): when the error strategy is `stop` and the first failing
change's command exits with nonzero code `c`, the run ends the loop at
that item by raising `SystemExit(c)` from inside `process_changes`; the
history-rewrite stage is skipped (no modified count is produced), the
cleanup abandons only the workspace's bootstrap change, the workspace is
still forgotten, and the process exit code is `c`. -/
theorem c1_stop_halts_without_rewrite (env : RunEnv) (pre : List Change)
    (c : Change) (post : List Change)
    (h1 : env.changes = pre ++ c :: post)
    (hpre : ∀ j, j < pre.length → env.batch.exitCode j = 0)
    (hfail : env.batch.exitCode pre.length ≠ 0) :
    (run_jj_command env .stop).rewriteRan = false ∧
    (run_jj_command env .stop).modifiedCount = none ∧
    (run_jj_command env .stop).abandoned = [env.workspaceChange.change_id] ∧
    (run_jj_command env .stop).forgot = true ∧
    (process_changes env.batch .stop env.changes).attempted = pre.length + 1 ∧
    jj_run_main env .stop = env.batch.exitCode pre.length := by
  have hbr : process_changes env.batch .stop env.changes
      = ⟨gathered env.batch 0 pre.length
            ++ env.batch.currentChanges pre.length, false, pre.length + 1,
          some (env.batch.exitCode pre.length)⟩ := by
    rw [h1]
    unfold process_changes
    rw [processChangesAux_first_fail_stop env.batch pre c post 0 [] true 0
      (fun j hj => by simpa using hpre j hj) (by simpa using hfail)]
    simp
  have hne : env.changes.isEmpty = false := by
    rw [h1]; simp
  simp [run_jj_command, jj_run_main, hne, hbr]

/-- C1 witness: the amended claim at the one-failing-change run. -/
theorem c1_stop_halts_without_rewrite_witness :
    (run_jj_command envOneFail .stop).rewriteRan = false ∧
    (run_jj_command envOneFail .stop).modifiedCount = none ∧
    (run_jj_command envOneFail .stop).abandoned
      = [envOneFail.workspaceChange.change_id] ∧
    (run_jj_command envOneFail .stop).forgot = true ∧
    (process_changes envOneFail.batch .stop envOneFail.changes).attempted
      = 1 ∧
    jj_run_main envOneFail .stop = 7 :=
  c1_stop_halts_without_rewrite envOneFail [] chIn1 [] rfl
    (fun j hj => by simp at hj) (by decide)

/-- C2: when the error strategy is `fatal` and the first failing change's
command exits with nonzero code `c`, the run aborts with process exit
code `c` (`handle_errors` raises `SystemExit(c)` and `__main__` re-raises
it for `fatal`), and the workspace registration is still removed because
`managed_workspace` forgets it in its `finally` on the abort path. -/
theorem c2_fatal_exit_code_and_forget (env : RunEnv) (pre : List Change)
    (c : Change) (post : List Change)
    (h1 : env.changes = pre ++ c :: post)
    (hpre : ∀ j, j < pre.length → env.batch.exitCode j = 0)
    (hfail : env.batch.exitCode pre.length ≠ 0) :
    jj_run_main env .fatal = env.batch.exitCode pre.length ∧
    (run_jj_command env .fatal).forgot = true := by
  have hbr : process_changes env.batch .fatal env.changes
      = ⟨gathered env.batch 0 pre.length, false, pre.length + 1,
          some (env.batch.exitCode pre.length)⟩ := by
    rw [h1]
    unfold process_changes
    rw [processChangesAux_first_fail_fatal env.batch pre c post 0 [] true 0
      (fun j hj => by simpa using hpre j hj) (by simpa using hfail)]
    simp
  have hne : env.changes.isEmpty = false := by
    rw [h1]; simp
  simp [run_jj_command, jj_run_main, hne, hbr]

/-- C2 witness: the single-failing-change run under `fatal` exits with
the failing command's code 7 and still forgets the workspace. -/
theorem c2_fatal_exit_code_and_forget_witness :
    jj_run_main envOneFail .fatal = 7 ∧
    (run_jj_command envOneFail .fatal).forgot = true :=
  c2_fatal_exit_code_and_forget envOneFail [] chIn1 [] rfl
    (fun j hj => by simp at hj) (by decide)

/-- C3, counterexample: under `fatal` with two input changes where the
first succeeds (producing `chNew1`) and the second fails, `chNew1` is in
the batch processor's new-change list, yet the cleanup abandons only the
bootstrap change: `run_jj_command`'s local `new_changes` is still `[]`
when `process_changes` raises, so the `finally` never sees the produced
change.  This falsifies "the cleanup step abandons ... every new change
produced during processing" on every exit path. -/
theorem c3_cleanup_counterexample :
    chNew1 ∈ (process_changes envTwoSecondFails.batch .fatal
        envTwoSecondFails.changes).newChanges ∧
    (run_jj_command envTwoSecondFails .fatal).abandoned
      = [chBoot.change_id] ∧
    chNew1.change_id ∉ (run_jj_command envTwoSecondFails .fatal).abandoned := by
  decide

/-- C3 (amended): on every exit path the workspace registration is
forgotten and the abandon step runs; when `process_changes` returns
normally the abandons cover every produced new change plus the bootstrap
change (also when `rewrite_parents` raised), but when the batch processor
itself raised (`stop`/`fatal` `SystemExit`), the caller's `new_changes`
is still empty and only the bootstrap change is abandoned. -/
theorem c3_cleanup_scope (env : RunEnv) (s : ErrStrategy) :
    (run_jj_command env s).forgot = true ∧
    (env.changes = [] →
      (run_jj_command env s).abandoned = [env.workspaceChange.change_id]) ∧
    ((process_changes env.batch s env.changes).exn = none →
      (run_jj_command env s).abandoned
        = (process_changes env.batch s env.changes).newChanges.map
            (fun c => c.change_id) ++ [env.workspaceChange.change_id]) ∧
    ((process_changes env.batch s env.changes).exn ≠ none →
      (run_jj_command env s).abandoned = [env.workspaceChange.change_id]) := by
  by_cases hemp : env.changes.isEmpty
  · have hnil : env.changes = [] := List.isEmpty_iff.mp hemp
    refine ⟨by simp [run_jj_command, hemp], fun _ => by simp [run_jj_command, hemp],
      fun _ => ?_, fun hne => ?_⟩
    · simp [run_jj_command, hemp, hnil, process_changes, processChangesAux]
    · rw [hnil] at hne
      simp [process_changes, processChangesAux] at hne
  · cases hexn : (process_changes env.batch s env.changes).exn with
    | some code =>
      refine ⟨by simp [run_jj_command, hemp, hexn], fun hnil => ?_,
        fun hnone => by simp [hexn] at hnone,
        fun _ => by simp [run_jj_command, hemp, hexn]⟩
      rw [hnil] at hemp
      simp at hemp
    | none =>
      cases hrw : rewrite_parents env.isEmpty
          (process_changes env.batch s env.changes).newChanges with
      | none =>
        refine ⟨by simp [run_jj_command, hemp, hexn, hrw], fun hnil => ?_,
          fun _ => by simp [run_jj_command, hemp, hexn, hrw],
          fun hne => absurd rfl hne⟩
        rw [hnil] at hemp
        simp at hemp
      | some r =>
        obtain ⟨n, ops⟩ := r
        refine ⟨by simp [run_jj_command, hemp, hexn, hrw], fun hnil => ?_,
          fun _ => by simp [run_jj_command, hemp, hexn, hrw],
          fun hne => absurd rfl hne⟩
        rw [hnil] at hemp
        simp at hemp

/-- C3 witness: on the empty-selection run the cleanup abandons exactly
the bootstrap change. -/
theorem c3_cleanup_scope_witness :
    (run_jj_command envNoChanges .cont).abandoned
      = [envNoChanges.workspaceChange.change_id] :=
  (c3_cleanup_scope envNoChanges .cont).2.1 rfl

/-- C4, counterexample: under `fatal`, the single input change is
attempted (the loop iteration runs) but `handle_errors` raises before the
`get_change_list "@"` append, so the new-change list stays empty — not
1:1 with the attempted changes, falsifying "regardless of the active
error strategy". -/
theorem c4_fatal_counterexample :
    (process_changes batchOneFail .fatal [chIn1]).attempted = 1 ∧
    (process_changes batchOneFail .fatal [chIn1]).newChanges = [] := by
  decide

/-- C4 (amended): when every `@` re-resolution yields exactly one change,
the batch processor's new-change list is 1:1 with the attempted input
changes under `continue` and under `stop` (the failing change is appended
before the `stop` raise); under `fatal`, the iteration that raises
`SystemExit` is attempted but contributes nothing, so the list is 1:1
with the attempted changes minus the fatally failing one. -/
theorem c4_new_change_list_correspondence (env : BatchEnv)
    (changes : List Change)
    (hlen : ∀ i, (env.currentChanges i).length = 1) :
    ((process_changes env .cont changes).newChanges.length
        = (process_changes env .cont changes).attempted) ∧
    ((process_changes env .stop changes).newChanges.length
        = (process_changes env .stop changes).attempted) ∧
    ((process_changes env .fatal changes).newChanges.length
          + (if (process_changes env .fatal changes).exn = none then 0 else 1)
        = (process_changes env .fatal changes).attempted) := by
  refine ⟨?_, ?_, ?_⟩
  · have h := processChangesAux_len_invariant env .cont (by simp) hlen
      changes 0 [] true 0
    simpa [process_changes] using h
  · have h := processChangesAux_len_invariant env .stop (by simp) hlen
      changes 0 [] true 0
    simpa [process_changes] using h
  · have h := processChangesAux_len_invariant_fatal env hlen
      changes 0 [] true 0
    simpa [process_changes] using h

/-- C4 witness: the correspondence at the one-failing-change batch. -/
theorem c4_new_change_list_correspondence_witness :
    ((process_changes batchOneFail .cont [chIn1]).newChanges.length
        = (process_changes batchOneFail .cont [chIn1]).attempted) ∧
    ((process_changes batchOneFail .stop [chIn1]).newChanges.length
        = (process_changes batchOneFail .stop [chIn1]).attempted) ∧
    ((process_changes batchOneFail .fatal [chIn1]).newChanges.length
          + (if (process_changes batchOneFail .fatal [chIn1]).exn = none
              then 0 else 1)
        = (process_changes batchOneFail .fatal [chIn1]).attempted) :=
  c4_new_change_list_correspondence batchOneFail [chIn1] (fun _ => rfl)

/-- C5: the decode-or-resync loop does NOT terminate on every input.  On
a stdout whose remaining text is undecodable and contains no line break
(for example `"garbage"`), the resynchronization step computes
`find("\n") + 1 = -1 + 1 = 0` and re-slices the whole buffer, so the loop
spins forever — modelled here as returning `none` (still running) for
every fuel bound, given only that the decoder fails on that buffer (as
`json.JSONDecoder().raw_decode` does on `"garbage"`). -/
theorem c5_parser_diverges_on_garbage
    (decode : List Char → Option (Change × Nat)) (fuel : Nat)
    (hdec : decode garbageBuf = none) :
    get_change_list decode fuel garbageBuf = none := by
  unfold get_change_list
  rw [if_neg (by simp [garbageBuf]), garbageBuf_strip]
  exact getChangeListLoop_garbage decode hdec fuel []

/-- C5 witness: a decoder that fails on everything (consistent with
`raw_decode` on `"garbage"`) makes the parser spin for 100 iterations. -/
theorem c5_parser_diverges_on_garbage_witness :
    get_change_list (fun _ => none) 100 garbageBuf = none :=
  c5_parser_diverges_on_garbage (fun _ => none) 100 rfl

/-- C6: under `continue`, a run over any input changes with any mix of
failing and succeeding user commands attempts every change, never raises,
reports one new change per input change (when each `@` re-resolution
yields exactly one change), and the process exits 0 — provided the
rewrite stage finds a parent for every non-empty new change, which is the
rewriter's own totality precondition. -/
theorem c6_continue_attempts_all (env : RunEnv)
    (hlen : ∀ i, (env.batch.currentChanges i).length = 1)
    (hpar : ∀ c ∈ (process_changes env.batch .cont env.changes).newChanges,
      env.isEmpty c.change_id = false → c.parents ≠ []) :
    (process_changes env.batch .cont env.changes).exn = none ∧
    (process_changes env.batch .cont env.changes).attempted
      = env.changes.length ∧
    (process_changes env.batch .cont env.changes).newChanges.length
      = env.changes.length ∧
    jj_run_main env .cont = 0 := by
  have htot := processChangesAux_cont_total env.batch env.changes 0 [] true 0
  have hinv := processChangesAux_len_invariant env.batch .cont (by simp) hlen
    env.changes 0 [] true 0
  have hexn : (process_changes env.batch .cont env.changes).exn = none := by
    simpa [process_changes] using htot.1
  have hatt : (process_changes env.batch .cont env.changes).attempted
      = env.changes.length := by
    simpa [process_changes] using htot.2
  have hlen2 : (process_changes env.batch .cont env.changes).newChanges.length
      = env.changes.length := by
    have h1 : (process_changes env.batch .cont env.changes).newChanges.length
        = (process_changes env.batch .cont env.changes).attempted := by
      simpa [process_changes] using hinv
    rw [h1, hatt]
  refine ⟨hexn, hatt, hlen2, ?_⟩
  by_cases hemp : env.changes.isEmpty
  · simp [jj_run_main, run_jj_command, hemp]
  · obtain ⟨⟨n, ops⟩, hrw⟩ := Option.isSome_iff_exists.mp
      (rewrite_parents_isSome env.isEmpty _ hpar)
    simp [jj_run_main, run_jj_command, hemp, hexn, hrw]

/-- C6 witness: one input change whose command fails (exit 7) under
`continue` — still attempted, still listed, process exits 0. -/
theorem c6_continue_attempts_all_witness :
    (process_changes envOneFail.batch .cont envOneFail.changes).exn = none ∧
    (process_changes envOneFail.batch .cont envOneFail.changes).attempted
      = 1 ∧
    (process_changes envOneFail.batch .cont
        envOneFail.changes).newChanges.length = 1 ∧
    jj_run_main envOneFail .cont = 0 :=
  c6_continue_attempts_all envOneFail (fun _ => rfl) (by decide)

/-- C7: when the selection resolves to no changes, the run reports
"nothing to do", performs no rewrite, abandons exactly the workspace's
bootstrap change, still forgets the workspace registration, and the
process exits 0 — under every error strategy. -/
theorem c7_empty_selection (env : RunEnv) (s : ErrStrategy)
    (h : env.changes = []) :
    (run_jj_command env s).reportedNothing = true ∧
    (run_jj_command env s).rewriteRan = false ∧
    (run_jj_command env s).abandoned = [env.workspaceChange.change_id] ∧
    (run_jj_command env s).forgot = true ∧
    jj_run_main env s = 0 := by
  simp [run_jj_command, jj_run_main, h]

/-- C7 witness: the empty-selection run under `fatal`. -/
theorem c7_empty_selection_witness :
    (run_jj_command envNoChanges .fatal).reportedNothing = true ∧
    (run_jj_command envNoChanges .fatal).rewriteRan = false ∧
    (run_jj_command envNoChanges .fatal).abandoned
      = [envNoChanges.workspaceChange.change_id] ∧
    (run_jj_command envNoChanges .fatal).forgot = true ∧
    jj_run_main envNoChanges .fatal = 0 :=
  c7_empty_selection envNoChanges .fatal rfl

/-- C8: the rewriter skips every empty change entirely (no edit or
transplant operation is issued for it and it is not counted) and, for
every non-empty change in list order, edits the first parent, restores
from the change, and counts it: its result is exactly the spec-side count
of non-empty changes and the spec-side operation sequence, whenever every
non-empty change has at least one parent. -/
theorem c8_rewriter_skips_empty (em : String → Bool) (changes : List Change)
    (h : ∀ c ∈ changes, em c.change_id = false → c.parents ≠ []) :
    rewrite_parents em changes
      = some (rewriteSpecCount em changes, rewriteSpecOps em changes) :=
  rewrite_parents_refines em changes h

/-- C8 witness: with `chIn1` empty and `chIn2` non-empty, the rewriter
issues exactly one edit/restore pair (for `chIn2`, targeting its first
parent) and counts one modified commit. -/
theorem c8_rewriter_skips_empty_witness :
    rewrite_parents (fun cid => cid == "inputid1") [chIn1, chIn2]
      = some (1, [("inputid1", "inputid2")]) := by
  have h := c8_rewriter_skips_empty (fun cid => cid == "inputid1")
    [chIn1, chIn2] (by decide)
  rw [h]
  decide

/-- C9: the abandon step of cleanup never fails (each abandon uses the
existence-tolerant `present(...)` selector) and running it a second time
on the same — by then absent — change identities succeeds and changes
nothing. -/
theorem c9_abandon_idempotent (repo ids : List String) :
    ∃ r, abandon_changes repo ids = some r ∧ abandon_changes r ids = some r := by
  obtain ⟨r, hr, hprop⟩ := abandon_changes_spec ids repo
  exact ⟨r, hr, abandon_changes_fixed ids r (fun x hx => (hprop x hx).2)⟩

/-- A decoded record with no `parents` field, as the parser defaults it. -/
def orphanRecord : RawRecord := ⟨"cx", "orphanid", none, none⟩

/-- C10: the rewriter is total under the precondition that every
non-empty change has at least one parent; and since the parser defaults a
record's missing `parents` field to the empty sequence, a non-empty
change with no parents makes `change.parents[0]` an out-of-bounds access
(the `none` result) instead of returning a count. -/
theorem c10_rewriter_totality_precondition :
    (∀ (em : String → Bool) (changes : List Change),
      (∀ c ∈ changes, em c.change_id = false → c.parents ≠ []) →
      (rewrite_parents em changes).isSome) ∧
    (changeOfRecord orphanRecord).parents = [] ∧
    rewrite_parents (fun _ => false) [changeOfRecord orphanRecord] = none :=
  ⟨fun em changes h => rewrite_parents_isSome em changes h, by decide, by decide⟩

/-- C10 witness: the totality half applied to a change with a parent. -/
theorem c10_rewriter_totality_precondition_witness :
    (rewrite_parents (fun _ => false) [chIn2]).isSome :=
  c10_rewriter_totality_precondition.1 (fun _ => false) [chIn2] (by decide)
